import Mathlib

/-!
Shallow embedding of `mpydev.py` (class `BioPac`): the session initializer,
the foreground control methods, the background sample-processing loop
(`_sampleprocesser`), and the tab-separated log-file format.

Channel readings are modelled as integers (`Val`); the code only ever
compares readings for equality, indexes into them, and prints them in
decimal, so an integer value domain preserves every behaviour the claims
are about. Python strings that must be split character-by-character are
modelled as `List Char`.
-/

deriving instance DecidableEq for Except

namespace MPyDev

abbrev Val := Int

/-- Python `str.upper()` restricted to ASCII, which covers the supported
device names. -/
def charUpper (c : Char) : Char :=
  if 'a' ≤ c ∧ c ≤ 'z' then Char.ofNat (c.toNat - 32) else c

/-- `devname.upper()` from `__init__` (line 117). -/
def strUpper (s : String) : String := ⟨s.data.map charUpper⟩

/-! ### Decimal rendering (Python `str` of a number) and its inverse -/

/-- The character for a single decimal digit, as Python prints it. -/
def digCh (d : Nat) : Char :=
  match d with
  | 0 => '0' | 1 => '1' | 2 => '2' | 3 => '3' | 4 => '4'
  | 5 => '5' | 6 => '6' | 7 => '7' | 8 => '8' | 9 => '9'
  | _ => '*'

/-- Fuelled helper for `natDigs`; the fuel only drives structural
recursion and is irrelevant once it is at least the number. -/
def natDigsF : Nat → Nat → List Char
  | 0, n => [digCh n]
  | fuel + 1, n =>
    if n < 10 then [digCh n]
    else natDigsF fuel (n / 10) ++ [digCh (n % 10)]

/-- Decimal digits of a natural number, most significant first
(Python `str(n)` for `n ≥ 0`). -/
def natDigs (n : Nat) : List Char := natDigsF n n

/-- Python `str(i)` for an integer: a minus sign followed by digits when
negative, plain digits otherwise. -/
def intChars (i : Int) : List Char :=
  if i < 0 then '-' :: natDigs i.natAbs else natDigs i.natAbs

/-- Whether a character is a decimal digit. -/
def isDig (c : Char) : Bool := 48 ≤ c.toNat && c.toNat ≤ 57

/-- Value of a digit character. -/
def digVal (c : Char) : Nat := c.toNat - 48

/-- Decode a digit string, most significant digit first. -/
def decDigs (cs : List Char) : Nat :=
  cs.foldl (fun a c => a * 10 + digVal c) 0

/-- Parse a non-empty all-digit character list as a natural number. -/
def parseNat (cs : List Char) : Option Nat :=
  if cs.isEmpty then none
  else if cs.all isDig then some (decDigs cs) else none

/-- Parse an optionally minus-signed digit string as an integer. -/
def parseInt (cs : List Char) : Option Int :=
  match cs with
  | [] => none
  | c :: rest =>
    if c = '-' then (parseNat rest).map (fun n => -(Int.ofNat n))
    else (parseNat (c :: rest)).map Int.ofNat

/-! ### Tab-joined rows (`"\t".join(...)`) and splitting on tabs -/

/-- Model of Python `"\t".join(fields)`. -/
def joinTab : List (List Char) → List Char
  | [] => []
  | [f] => f
  | f :: g :: rest => f ++ '\t' :: joinTab (g :: rest)

/-- Model of Python `row.split("\t")`. -/
def splitTab : List Char → List (List Char)
  | [] => [[]]
  | c :: rest =>
    if c = '\t' then [] :: splitTab rest
    else
      match splitTab rest with
      | f :: fs => (c :: f) :: fs
      | [] => [[c]]

/-! ### Log rows and the persisted file format -/

/-- One row of the log file. The header comes from `__init__` (line 205),
data rows from `_sampleprocesser` (line 424), message rows from `log`
(line 339). -/
inductive Row where
  | header (cols : List String)
  | data (t : Nat) (vs : List Val)
  | msg (t : Nat) (text : String)
deriving DecidableEq

/-- The literal first field of a message row (`"MSG"`). -/
def msgTag : List Char := ['M', 'S', 'G']

/-- The characters of one row, without the newline the source prepends on
append. Data rows are `"\t".join(map(str, [t] + data))`; message rows are
`"MSG\t%d\t%s" % (t, msg)`; the header is `"\t".join(header)`. -/
def rowLine : Row → List Char
  | .header cols => joinTab (cols.map String.data)
  | .data t vs => joinTab (natDigs t :: vs.map intChars)
  | .msg t text => joinTab [msgTag, natDigs t, text.data]

/-- The whole log file: the header row is written bare; every later row is
written as `"\n" + row`. -/
def fileChars : List Row → List Char
  | [] => []
  | r :: rest => rowLine r ++ (rest.map (fun q => '\n' :: rowLine q)).flatten

/-- Parse a list of tab-split fields back into the values of an integer
data row. -/
def parseIntList : List (List Char) → Option (List Val)
  | [] => some []
  | f :: fs =>
    match parseInt f, parseIntList fs with
    | some v, some vs => some (v :: vs)
    | _, _ => none

/-- Reconstruct a data or message row from its tab-split fields. -/
def parseRow (fields : List (List Char)) : Option Row :=
  match fields with
  | [] => none
  | tf :: rest =>
    if tf = msgTag then
      match rest with
      | [tcs, m] => (parseNat tcs).map (fun t => Row.msg t (String.mk m))
      | _ => none
    else
      match parseNat tf with
      | none => none
      | some t => (parseIntList rest).map (fun vs => Row.data t vs)

/-- Timestamp of a row (the header carries none). -/
def rowTime : Row → Nat
  | .header _ => 0
  | .data t _ => t
  | .msg t _ => t

/-- The data rows of a row list, in order. -/
def dataRows (rows : List Row) : List Row :=
  rows.filter fun r =>
    match r with
    | .data _ _ => true
    | _ => false

/-- Modelled from the spec's words ("exactly one data row per distinct
consecutive sample value"): the distinct consecutive values of a fed
sequence, used only to state what the claims expect. -/
def specDistinctConsecutive (l : List (List Val)) : List (List Val) :=
  l.destutter (· ≠ ·)

/-! ### The driver interface and session initialization (`__init__`) -/

/-- The `mpdev.dll` entry points the class calls. -/
inductive DriverCall where
  | connectMPDev
  | setSampleRate
  | setAcqChannels
  | startAcquisition
  | disconnectMPDev
deriving DecidableEq

/-- Success (`MPSUCCESS`) or failure of each driver call made during open;
the source distinguishes only success from everything else. -/
structure DriverResp where
  connect_ok : Bool
  rate_ok : Bool
  chans_ok : Bool
  start_ok : Bool
deriving DecidableEq

/-- The distinct raise sites of the source, named after the spec's error
taxonomy. `typeErrorPercentD` is Python's own `TypeError` from applying a
`%d` format specifier to a string. -/
inductive MPError where
  | unsupportedDevice
  | invalidChannelCount
  | deviceCommunication (step : DriverCall)
  | typeErrorPercentD
deriving DecidableEq

/-- A Python value handed to a `%` format specifier. -/
inductive PyVal where
  | pint (i : Int)
  | pstr (s : String)

/-- Python `%s`: accepts any value and renders it. -/
def percentS : PyVal → List Char
  | .pint i => intChars i
  | .pstr s => s.data

/-- Python `%d`: requires a number; a string raises `TypeError`. -/
def percentD : PyVal → Except MPError (List Char)
  | .pint i => .ok (intChars i)
  | .pstr _ => .error .typeErrorPercentD

/-- `"%s_%d_BIOPAC_data.tsv" % (i, logfile)` from the collision loop in
`__init__` (line 145). The argument order does not match the specifiers:
`%s` receives the counter `i` and `%d` receives the string `logfile`, so
the formatting raises `TypeError`. -/
def collisionName (i : Int) (logfile : String) : Except MPError String := do
  let a := percentS (.pint i)
  let b ← percentD (.pstr logfile)
  pure (String.mk a ++ "_" ++ String.mk b ++ "_BIOPAC_data.tsv")

/-- `"%s_BIOPAC_data.tsv" % logfile` (line 138). -/
def baseLogName (logfile : String) : String := logfile ++ "_BIOPAC_data.tsv"

/-- Log-file name resolution from `__init__` (lines 137-145). If the base
name exists and overwrite is off, the source enters a `while` loop whose
body increments `i` (to 2) and evaluates `collisionName`; that formatting
always raises, so the loop never completes its first iteration and the
`.ok` branch below is dead. -/
def resolveLogName (isfile : String → Bool) (logfile : String) (overwrite : Bool) :
    Except MPError String :=
  let base := baseLogName logfile
  if isfile base && !overwrite then
    match collisionName 2 logfile with
    | .error e => .error e
    | .ok name => .ok name
  else
    .ok base

/-- `open(self._logfilename, 'w')` (line 203): write mode, which truncates
an existing file. -/
def logOpenMode : String := "w"

/-- The instance attributes of `BioPac` that the claims concern. -/
structure BioPac where
  n_channels : Nat
  samplerate : Nat
  logfilename : String
  newestsample : List Val
  /-- Whether `_newestsample` is still the `numpy.zeros(n_channels)` array
  from `__init__` (line 148). It becomes a plain tuple the first time the
  loop installs a novel sample (line 414); the distinction matters because
  the truth test `data != self._newestsample` (line 412) behaves
  differently on an ndarray than on a tuple. -/
  newest_is_array : Bool
  buffer : List Val
  buffch : Nat
  recording : Bool
  recordtobuff : Bool
  connected : Bool
  logrows : List Row
deriving DecidableEq

/-- The header row written at open (lines 205-207). -/
def headerRow (n : Nat) : Row :=
  .header ("timestamp" :: (List.range n).map (fun i => "channel_" ++ String.mk (natDigs i)))

/-- The attribute values a fully opened session starts with:
`_newestsample = numpy.zeros(n_channels)`, empty buffer, channel 0, all
flags down except `_connected`, and a log holding only the header. -/
def initState (n samplerate : Nat) (fname : String) : BioPac :=
  { n_channels := n
    samplerate := samplerate
    logfilename := fname
    newestsample := List.replicate n 0
    newest_is_array := true
    buffer := []
    buffch := 0
    recording := false
    recordtobuff := false
    connected := true
    logrows := [headerRow n] }

/-- The supported-device table of `__init__` (lines 110-114). -/
def supported : List (String × Nat) :=
  [("MP150", 101), ("MP160", 103), ("MP36R", 103)]

/-- `BioPac.__init__` as a function of the caller's arguments, the
filesystem (`isfile`), and the driver's per-step outcomes. Returns the
result and the list of driver calls attempted, in source order: device-name
check, channel-count check, log-name resolution, then
connect → setSampleRate → setAcqChannels → startAcquisition, each aborting
on a non-success code without any unwinding call. -/
def initBioPac (devname : String) (n_channels : Int) (samplerate : Nat)
    (logfile : String) (overwrite : Bool) (isfile : String → Bool)
    (resp : DriverResp) : Except MPError BioPac × List DriverCall :=
  match supported.lookup (strUpper devname) with
  | none => (.error .unsupportedDevice, [])
  | some _devcode =>
    if 0 < n_channels ∧ n_channels ≤ 16 then
      match resolveLogName isfile logfile overwrite with
      | .error e => (.error e, [])
      | .ok fname =>
        if !resp.connect_ok then
          (.error (.deviceCommunication .connectMPDev), [.connectMPDev])
        else if !resp.rate_ok then
          (.error (.deviceCommunication .setSampleRate),
            [.connectMPDev, .setSampleRate])
        else if !resp.chans_ok then
          (.error (.deviceCommunication .setAcqChannels),
            [.connectMPDev, .setSampleRate, .setAcqChannels])
        else if !resp.start_ok then
          (.error (.deviceCommunication .startAcquisition),
            [.connectMPDev, .setSampleRate, .setAcqChannels, .startAcquisition])
        else
          (.ok (initState n_channels.toNat samplerate fname),
            [.connectMPDev, .setSampleRate, .setAcqChannels, .startAcquisition])
    else (.error .invalidChannelCount, [])

/-! ### Foreground methods -/

/-- `start_recording` (line 224). -/
def start_recording (s : BioPac) : BioPac := { s with recording := true }

/-- `stop_recording` (line 235): clears the flag, then flushes and fsyncs the
log file under the log lock; neither changes the row content. -/
def stop_recording (s : BioPac) : BioPac := { s with recording := false }

/-- `start_recording_to_buffer` (line 254): clears the buffer, stores the
requested channel index, raises the flag. The source performs no check on
`channel`. -/
def start_recording_to_buffer (s : BioPac) (channel : Nat) : BioPac :=
  { s with buffer := [], buffch := channel, recordtobuff := true }

/-- `stop_recording_to_buffer` (line 276). -/
def stop_recording_to_buffer (s : BioPac) : BioPac :=
  { s with recordtobuff := false }

/-- `sample` (line 287): returns `self._newestsample`. -/
def sample (s : BioPac) : List Val := s.newestsample

/-- `get_buffer` (line 302): returns `numpy.array(self._buffer)`, a copy of
the buffer's current contents. -/
def get_buffer (s : BioPac) : List Val := s.buffer

/-- `log(msg)` (line 320): takes a timestamp `t`, acquires `_loglock`,
appends `"\nMSG\t%d\t%s" % (t, msg)`, releases the lock. -/
def log (s : BioPac) (t : Nat) (msg : String) : BioPac :=
  { s with logrows := s.logrows ++ [Row.msg t msg] }

/-- The lock objects of the class; `_loglock` is the only one. -/
inductive LockId where
  | loglock
deriving DecidableEq

/-- The lock `log` acquires around its message write (line 336). -/
def logLock : LockId := .loglock

/-- The lock `_sampleprocesser` acquires around its data-row write
(line 422). -/
def sampleprocesserLock : LockId := .loglock

/-- The externally visible steps of `close()` in source order (lines
352-367). `joinLoop` is in the vocabulary so the claim can be stated, but
`close` never performs it. -/
inductive CloseAction where
  | stopRecording
  | closeLogSink
  | clearAliveIndicator
  | disconnectDevice
  | joinLoop
deriving DecidableEq

/-- The ordered actions `close()` performs, given the recording flag. -/
def closeActions (recording : Bool) : List CloseAction :=
  (if recording then [.stopRecording] else []) ++
    [.closeLogSink, .clearAliveIndicator, .disconnectDevice]

/-! ### The acquisition loop (`_sampleprocesser`) -/

/-- One observed driver fetch: whether `getMostRecentSample` returned
`MPSUCCESS`, the values it wrote, and the clock reading taken right
after it. -/
structure FetchEvent where
  fetch_ok : Bool
  raw : List Val
  t : Nat
deriving DecidableEq

/-- `getMostRecentSample` writes into a `c_double` array created with
`n_channels` zeros; the tuple built from it always has exactly
`n_channels` entries, zero-filled where the driver wrote nothing. -/
def fetchFill (n : Nat) (raw : List Val) : List Val :=
  (raw ++ List.replicate n 0).take n

/-- The state after one novel-sample iteration (used to state what
`processSample` computes). The install of the deep-copied tuple turns
`_newestsample` from the initial ndarray into a tuple. -/
def stepState (s : BioPac) (e : FetchEvent) : BioPac :=
  let d := fetchFill s.n_channels e.raw
  { s with
    newestsample := d
    newest_is_array := false
    logrows := s.logrows ++ (if s.recording then [Row.data e.t d] else [])
    buffer := s.buffer ++ (if s.recordtobuff then [d.getD s.buffch 0] else []) }

/-- One iteration body of `_sampleprocesser` (lines 393-430). The returned
flag is `false` when the iteration raises an uncaught exception, which
kills the thread while the object — with whatever attributes were mutated
before the raise point — stays readable by the foreground. The raise
sites: a non-success fetch result (line 409); the truth test
`data != self._newestsample` (line 412), which raises `ValueError` while
`_newestsample` is still the initial numpy array and the elementwise
tuple-vs-ndarray comparison yields more than one element (a one-element
bool array is truthy iff its element is, matching value inequality); and
an out-of-range `self._newestsample[self._buffch]` (line 430), an
`IndexError` raised after the sample install and any log write. -/
def processSample (s : BioPac) (e : FetchEvent) : BioPac × Bool :=
  if e.fetch_ok = false then (s, false)
  else
    let d := fetchFill s.n_channels e.raw
    if s.newest_is_array = true ∧ 2 ≤ s.n_channels then (s, false)
    else if d ≠ s.newestsample then
      let s1 : BioPac := { s with newestsample := d, newest_is_array := false }
      let s2 : BioPac :=
        if s1.recording then { s1 with logrows := s1.logrows ++ [Row.data e.t d] }
        else s1
      if s2.recordtobuff then
        match s2.newestsample.get? s2.buffch with
        | some v => ({ s2 with buffer := s2.buffer ++ [v] }, true)
        | none => (s2, false)
      else (s2, true)
    else (s, true)

/-- The `while self._connected` loop of `_sampleprocesser`, driven by a
finite list of fetch events; stops early if the alive flag is down, and
stops dead — returning the state as of the raise point — when an
iteration raises. The flag is `true` when the thread is still alive. -/
def runLoop (s : BioPac) : List FetchEvent → BioPac × Bool
  | [] => (s, true)
  | e :: rest =>
    if s.connected then
      match processSample s e with
      | (s2, true) => runLoop s2 rest
      | (s2, false) => (s2, false)
    else (s, true)

/-- The filled sample vectors of a list of fetch events. -/
def fetchedData (n : Nat) (es : List FetchEvent) : List (List Val) :=
  es.map fun e => fetchFill n e.raw

/-- The filled sample vectors of a list of fetch events, paired with their
timestamps. -/
def fetchedPairs (n : Nat) (es : List FetchEvent) : List (List Val × Nat) :=
  es.map fun e => (fetchFill n e.raw, e.t)

/-- The data rows the loop appends while recording, given the latest sample
held at entry: one row per fetched value that differs from the previously
held one. -/
def dedupFrom (prev : List Val) : List (List Val × Nat) → List Row
  | [] => []
  | (d, t) :: rest =>
    if d = prev then dedupFrom prev rest
    else Row.data t d :: dedupFrom d rest

/-! ## Theorems -/

/-! ### The decimal rendering round-trips -/

theorem natDigsF_agree : ∀ f1 f2 m : Nat, m ≤ f1 → m ≤ f2 →
    natDigsF f1 m = natDigsF f2 m := by
  intro f1
  induction f1 with
  | zero =>
    intro f2 m h1 _
    interval_cases m
    cases f2 with
    | zero => rfl
    | succ g => simp [natDigsF]
  | succ f ih =>
    intro f2 m h1 h2
    cases f2 with
    | zero =>
      interval_cases m
      simp [natDigsF]
    | succ g =>
      rw [natDigsF, natDigsF]
      split
      · rfl
      · rename_i hm
        have hd : m / 10 < m := Nat.div_lt_self (by omega) (by omega)
        rw [ih g (m / 10) (by omega) (by omega)]

theorem natDigs_eq (n : Nat) :
    natDigs n = if n < 10 then [digCh n] else natDigs (n / 10) ++ [digCh (n % 10)] := by
  rw [natDigs]
  cases n with
  | zero => simp [natDigsF]
  | succ m =>
    rw [natDigsF]
    split
    · rfl
    · rename_i hm
      rw [natDigs, natDigsF_agree m ((m + 1) / 10) ((m + 1) / 10) (by omega) (le_refl _)]

theorem digVal_digCh {d : Nat} (h : d < 10) : digVal (digCh d) = d := by
  interval_cases d <;> decide

theorem isDig_digCh {d : Nat} (h : d < 10) : isDig (digCh d) = true := by
  interval_cases d <;> decide

theorem natDigs_ne_nil (n : Nat) : natDigs n ≠ [] := by
  rw [natDigs_eq]
  split <;> simp

theorem natDigs_all_digits (n : Nat) : (natDigs n).all isDig = true := by
  induction n using Nat.strong_induction_on with
  | _ n ih =>
    rw [natDigs_eq]
    split
    · simpa using isDig_digCh (by omega)
    · rename_i h
      have hlt : n / 10 < n := Nat.div_lt_self (by omega) (by omega)
      simp only [List.all_append, Bool.and_eq_true]
      exact ⟨ih _ hlt, by simpa using isDig_digCh (Nat.mod_lt _ (by omega))⟩

theorem decDigs_append_digit (cs : List Char) (c : Char) :
    decDigs (cs ++ [c]) = decDigs cs * 10 + digVal c := by
  simp [decDigs, List.foldl_append]

theorem decDigs_natDigs (n : Nat) : decDigs (natDigs n) = n := by
  induction n using Nat.strong_induction_on with
  | _ n ih =>
    rw [natDigs_eq]
    split
    · rename_i h
      simp [decDigs, digVal_digCh h]
    · rename_i h
      have hlt : n / 10 < n := Nat.div_lt_self (by omega) (by omega)
      rw [decDigs_append_digit, ih _ hlt, digVal_digCh (Nat.mod_lt _ (by omega))]
      omega

theorem parseNat_natDigs (n : Nat) : parseNat (natDigs n) = some n := by
  rw [parseNat, if_neg (by simpa using natDigs_ne_nil n),
    if_pos (natDigs_all_digits n), decDigs_natDigs]

theorem natDigs_head_not_dash (n : Nat) (rest : List Char) :
    natDigs n ≠ '-' :: rest := by
  intro h
  have hall := natDigs_all_digits n
  rw [h] at hall
  simp [isDig] at hall

theorem isDig_ne_dash {c : Char} (h : isDig c = true) : c ≠ '-' := by
  intro hc
  rw [hc] at h
  simp [isDig] at h

theorem parseInt_intChars (i : Int) : parseInt (intChars i) = some i := by
  rw [intChars]
  split
  · rename_i h
    rw [parseInt, if_pos rfl, parseNat_natDigs]
    simp only [Option.map_some', Option.some.injEq, Int.ofNat_eq_coe]
    omega
  · rename_i h
    cases hd : natDigs i.natAbs with
    | nil => exact absurd hd (natDigs_ne_nil _)
    | cons c rest =>
      have hdig : isDig c = true := by
        have := natDigs_all_digits i.natAbs
        rw [hd] at this
        simp only [List.all_cons, Bool.and_eq_true] at this
        exact this.1
      rw [parseInt, if_neg (isDig_ne_dash hdig), ← hd, parseNat_natDigs]
      simp only [Option.map_some', Option.some.injEq, Int.ofNat_eq_coe]
      omega

/-! ### Splitting on tabs inverts tab-joining -/

theorem splitTab_no_tab (f : List Char) (h : '\t' ∉ f) : splitTab f = [f] := by
  induction f with
  | nil => rfl
  | cons c rest ih =>
    rw [splitTab, if_neg (by intro hc; exact h (hc ▸ List.mem_cons_self c rest))]
    rw [ih (fun hm => h (List.mem_cons_of_mem c hm))]

theorem splitTab_append_tab (f cs : List Char) (h : '\t' ∉ f) :
    splitTab (f ++ '\t' :: cs) = f :: splitTab cs := by
  induction f with
  | nil => simp [splitTab]
  | cons c rest ih =>
    have hc : c ≠ '\t' := fun hc => h (hc ▸ List.mem_cons_self c rest)
    rw [List.cons_append, splitTab, if_neg hc,
      ih (fun hm => h (List.mem_cons_of_mem c hm))]

theorem splitTab_joinTab (fields : List (List Char)) (hne : fields ≠ [])
    (h : ∀ f ∈ fields, '\t' ∉ f) : splitTab (joinTab fields) = fields := by
  induction fields with
  | nil => exact absurd rfl hne
  | cons f rest ih =>
    cases rest with
    | nil => exact splitTab_no_tab f (h f (List.mem_cons_self _ _))
    | cons g rest2 =>
      rw [joinTab, splitTab_append_tab _ _ (h f (List.mem_cons_self _ _)),
        ih (by simp) (fun x hx => h x (List.mem_cons_of_mem f hx))]

theorem natDigs_no_tab (n : Nat) : '\t' ∉ natDigs n := by
  intro hmem
  have hall := natDigs_all_digits n
  rw [List.all_eq_true] at hall
  exact absurd (hall _ hmem) (by decide)

theorem intChars_no_tab (i : Int) : '\t' ∉ intChars i := by
  rw [intChars]
  split
  · intro h
    rcases List.mem_cons.mp h with h | h
    · exact absurd h (by decide)
    · exact natDigs_no_tab _ h
  · exact natDigs_no_tab _

theorem natDigs_ne_msgTag (n : Nat) : natDigs n ≠ msgTag := by
  intro h
  have hall := natDigs_all_digits n
  rw [h] at hall
  exact absurd hall (by decide)

/-! ### Row-level round-trips -/

theorem parseIntList_map_intChars (vs : List Val) :
    parseIntList (vs.map intChars) = some vs := by
  induction vs with
  | nil => rfl
  | cons v rest ih => simp [parseIntList, parseInt_intChars, ih]

theorem splitTab_rowLine_data (t : Nat) (vs : List Val) :
    splitTab (rowLine (.data t vs)) = natDigs t :: vs.map intChars := by
  rw [rowLine]
  refine splitTab_joinTab _ (by simp) ?_
  intro f hf
  rcases List.mem_cons.mp hf with h | h
  · exact h ▸ natDigs_no_tab t
  · obtain ⟨v, _, rfl⟩ := List.mem_map.mp h
    exact intChars_no_tab v

theorem splitTab_rowLine_msg (t : Nat) (m : String) (hm : '\t' ∉ m.data) :
    splitTab (rowLine (.msg t m)) = [msgTag, natDigs t, m.data] := by
  rw [rowLine]
  refine splitTab_joinTab _ (by simp) ?_
  intro f hf
  simp only [List.mem_cons, List.not_mem_nil, or_false] at hf
  rcases hf with rfl | rfl | rfl
  · decide
  · exact natDigs_no_tab t
  · exact hm

/-! ### The fetched sample always has `n_channels` entries -/

theorem fetchFill_length (n : Nat) (raw : List Val) :
    (fetchFill n raw).length = n := by
  simp [fetchFill]

theorem fetchFill_of_length (n : Nat) (raw : List Val) (h : raw.length = n) :
    fetchFill n raw = raw := by
  rw [fetchFill, ← h, List.take_left]

/-! ### One iteration of the sample-processing loop -/

theorem processSample_eq (s : BioPac) (e : FetchEvent) (hok : e.fetch_ok = true)
    (hch : s.buffch < s.n_channels)
    (hcmp : s.newest_is_array = false ∨ s.n_channels ≤ 1) :
    processSample s e =
      (if fetchFill s.n_channels e.raw = s.newestsample then s
       else stepState s e, true) := by
  have hlen : (fetchFill s.n_channels e.raw).length = s.n_channels :=
    fetchFill_length _ _
  have hnoerr : ¬(s.newest_is_array = true ∧ 2 ≤ s.n_channels) := by
    rcases hcmp with h | h
    · simp [h]
    · exact fun hc => absurd hc.2 (by omega)
  by_cases hnew : fetchFill s.n_channels e.raw = s.newestsample
  · simp [processSample, hok, hnoerr, hnew]
  · obtain ⟨v, hv⟩ : ∃ v, (fetchFill s.n_channels e.raw)[s.buffch]? = some v :=
      ⟨_, List.getElem?_eq_getElem (by rw [hlen]; exact hch)⟩
    by_cases hr : s.recording <;> by_cases hb : s.recordtobuff <;>
      simp [processSample, stepState, hok, hnoerr, hnew, hr, hb, hv]

theorem processSample_shape (s : BioPac) (e : FetchEvent) :
    (processSample s e).1.n_channels = s.n_channels ∧
    (processSample s e).1.connected = s.connected ∧
    ((processSample s e).1.newestsample = s.newestsample ∨
      (processSample s e).1.newestsample = fetchFill s.n_channels e.raw) := by
  by_cases hok : e.fetch_ok = false
  · simp [processSample, hok]
  · by_cases herr : s.newest_is_array = true ∧ 2 ≤ s.n_channels
    · simp [processSample, hok, herr]
    · by_cases hnew : fetchFill s.n_channels e.raw = s.newestsample
      · simp [processSample, hok, herr, hnew]
      · by_cases hr : s.recording <;> by_cases hb : s.recordtobuff
        all_goals
          cases hget : (fetchFill s.n_channels e.raw)[s.buffch]? with
          | none => simp [processSample, hok, herr, hnew, hr, hb, hget]
          | some v => simp [processSample, hok, herr, hnew, hr, hb, hget]

/-! ### Runs of the loop -/

theorem runLoop_buffer_general (es : List FetchEvent) : ∀ s : BioPac,
    s.connected = true → s.recordtobuff = true → s.buffch < s.n_channels →
    (s.newest_is_array = false ∨ s.n_channels ≤ 1) →
    (∀ e ∈ es, e.fetch_ok = true) →
    (s.newestsample :: fetchedData s.n_channels es).Chain' (· ≠ ·) →
    ∃ s2, runLoop s es = (s2, true) ∧
      s2.buffer = s.buffer ++
        (fetchedData s.n_channels es).map (fun d => d.getD s.buffch 0) ∧
      s2.recordtobuff = true ∧ s2.buffch = s.buffch ∧ s2.connected = true ∧
      s2.n_channels = s.n_channels := by
  induction es with
  | nil =>
    intro s h1 h2 _ _ _ _
    exact ⟨s, rfl, by simp [fetchedData], h2, rfl, h1, rfl⟩
  | cons e rest ih =>
    intro s hconn hflag hch hcmp hok hchain
    have hoke : e.fetch_ok = true := hok e (List.mem_cons_self _ _)
    have hcons : fetchedData s.n_channels (e :: rest) =
        fetchFill s.n_channels e.raw :: fetchedData s.n_channels rest := rfl
    rw [hcons] at hchain
    have hne : fetchFill s.n_channels e.raw ≠ s.newestsample :=
      Ne.symm (List.chain'_cons.mp hchain).1
    obtain ⟨s2, hrun, hbuf, hfl, hbch, hcn, hnc⟩ := ih (stepState s e)
      (by simp [stepState, hconn]) (by simp [stepState, hflag])
      (by simpa [stepState] using hch)
      (Or.inl (by simp [stepState]))
      (fun e2 he2 => hok e2 (List.mem_cons_of_mem _ he2))
      (by simpa [stepState] using (List.chain'_cons.mp hchain).2)
    refine ⟨s2, ?_, ?_, hfl, ?_, hcn, ?_⟩
    · rw [runLoop, if_pos hconn, processSample_eq s e hoke hch hcmp, if_neg hne]
      exact hrun
    · rw [hbuf]
      simp [stepState, hflag, fetchedData]
    · rw [hbch]
      rfl
    · rw [hnc]
      rfl

theorem runLoop_logrows_general (es : List FetchEvent) : ∀ s : BioPac,
    s.connected = true → s.recording = true → s.buffch < s.n_channels →
    (s.newest_is_array = false ∨ s.n_channels ≤ 1) →
    (∀ e ∈ es, e.fetch_ok = true) →
    ∃ s2, runLoop s es = (s2, true) ∧
      s2.logrows = s.logrows ++
        dedupFrom s.newestsample (fetchedPairs s.n_channels es) ∧
      s2.recording = true ∧ s2.connected = true := by
  induction es with
  | nil =>
    intro s h1 h2 _ _ _
    exact ⟨s, rfl, by simp [fetchedPairs, dedupFrom], h2, h1⟩
  | cons e rest ih =>
    intro s hconn hrec hch hcmp hok
    have hoke : e.fetch_ok = true := hok e (List.mem_cons_self _ _)
    have hokr : ∀ e2 ∈ rest, e2.fetch_ok = true :=
      fun e2 he2 => hok e2 (List.mem_cons_of_mem _ he2)
    rw [runLoop, if_pos hconn, processSample_eq s e hoke hch hcmp]
    by_cases hnew : fetchFill s.n_channels e.raw = s.newestsample
    · rw [if_pos hnew]
      obtain ⟨s2, hrun, hrows, h3, h4⟩ := ih s hconn hrec hch hcmp hokr
      refine ⟨s2, hrun, ?_, h3, h4⟩
      rw [hrows]
      simp [fetchedPairs, dedupFrom, hnew]
    · rw [if_neg hnew]
      obtain ⟨s2, hrun, hrows, h3, h4⟩ := ih (stepState s e)
        (by simp [stepState, hconn]) (by simp [stepState, hrec])
        (by simpa [stepState] using hch) (Or.inl (by simp [stepState])) hokr
      refine ⟨s2, hrun, ?_, h3, h4⟩
      rw [hrows]
      simp [stepState, hrec, fetchedPairs, dedupFrom, hnew]

theorem runLoop_length_general (es : List FetchEvent) : ∀ s : BioPac,
    s.newestsample.length = s.n_channels →
    (runLoop s es).1.newestsample.length = (runLoop s es).1.n_channels ∧
      (runLoop s es).1.n_channels = s.n_channels := by
  induction es with
  | nil =>
    intro s hlen
    exact ⟨hlen, rfl⟩
  | cons e rest ih =>
    intro s hlen
    by_cases hconn : s.connected
    · obtain ⟨hnc, _, hor⟩ := processSample_shape s e
      have hlen1 : (processSample s e).1.newestsample.length =
          (processSample s e).1.n_channels := by
        rcases hor with h1 | h1
        · rw [h1, hnc]
          exact hlen
        · rw [h1, hnc]
          exact fetchFill_length _ _
      rw [runLoop, if_pos hconn]
      cases hp : processSample s e with
      | mk s1 alive =>
        rw [hp] at hlen1 hnc
        cases alive
        · exact ⟨hlen1, hnc⟩
        · obtain ⟨ha, hb⟩ := ih s1 hlen1
          exact ⟨ha, hb.trans hnc⟩
    · rw [runLoop, if_neg hconn]
      exact ⟨hlen, rfl⟩

theorem dedupFrom_times_sublist (l : List (List Val × Nat)) : ∀ prev : List Val,
    ((dedupFrom prev l).map rowTime).Sublist (l.map Prod.snd) := by
  induction l with
  | nil =>
    intro prev
    simp [dedupFrom]
  | cons p rest ih =>
    intro prev
    obtain ⟨d, t⟩ := p
    rw [dedupFrom]
    split
    · exact (ih prev).cons _
    · rw [List.map_cons, List.map_cons]
      exact (ih d).cons₂ _

/-! ## Claim theorems -/

/-- C1 (counterexample): with recording on for the whole sequence, feeding
the single sample `[0]` — equal to the initial all-zeros latest-sample
state — produces 0 data rows, while the claim ("exactly one data row per
distinct consecutive sample value") expects 1. -/
theorem claim1_counterexample :
    runLoop (start_recording (initState 1 200 "log")) [⟨true, [0], 5⟩] =
      (start_recording (initState 1 200 "log"), true) ∧
    dataRows (start_recording (initState 1 200 "log")).logrows = [] ∧
    (specDistinctConsecutive [([0] : List Val)]).length = 1 := by
  decide

/-- C1 (amended): while recording-to-log is on for a whole fetched
sequence — on a session whose held latest sample is already a plain tuple
(at least one novel sample installed since open), or whose channel count
is 1 — the log sink gains exactly one data row per fetched sample that
differs from the previously held latest sample, in arrival order, with
non-decreasing timestamps whenever the clock readings are non-decreasing.
(On a multi-channel session straight from open the first iteration's
tuple-vs-ndarray truth test raises `ValueError` and the thread dies
before any log write; on a single-channel session the held sample starts
as the zeros vector, so a leading run of zeros produces no row.) -/
theorem claim1_log_dedup (s : BioPac) (es : List FetchEvent)
    (hconn : s.connected = true) (hrec : s.recording = true)
    (hch : s.buffch < s.n_channels)
    (hcmp : s.newest_is_array = false ∨ s.n_channels ≤ 1)
    (hok : ∀ e ∈ es, e.fetch_ok = true)
    (hmono : (es.map FetchEvent.t).Chain' (· ≤ ·)) :
    ∃ s2, runLoop s es = (s2, true) ∧
      s2.logrows = s.logrows ++
        dedupFrom s.newestsample (fetchedPairs s.n_channels es) ∧
      ((dedupFrom s.newestsample (fetchedPairs s.n_channels es)).map
        rowTime).Chain' (· ≤ ·) := by
  obtain ⟨s2, h1, h2, _, _⟩ :=
    runLoop_logrows_general es s hconn hrec hch hcmp hok
  refine ⟨s2, h1, h2, ?_⟩
  have hsnd : (fetchedPairs s.n_channels es).map Prod.snd =
      es.map FetchEvent.t := by
    simp [fetchedPairs]
  refine List.Chain'.sublist ?_ (dedupFrom_times_sublist _ s.newestsample)
  rw [hsnd]
  exact hmono

/-- C1 (witness): a two-event run of the amended statement on a
single-channel session. -/
theorem claim1_witness :
    ∃ s2, runLoop (start_recording (initState 1 200 "log"))
        [⟨true, [7], 3⟩, ⟨true, [7], 4⟩] = (s2, true) ∧
      s2.logrows = [headerRow 1, Row.data 3 [7]] := by
  obtain ⟨s2, h1, h2, _⟩ := claim1_log_dedup (start_recording (initState 1 200 "log"))
    [⟨true, [7], 3⟩, ⟨true, [7], 4⟩] rfl rfl (by decide) (Or.inr (by decide))
    (by decide) (by simp [List.chain'_cons])
  exact ⟨s2, h1, h2.trans (by decide)⟩

/-- C2 (counterexample): on a 2-channel session straight from open, the
claimed sequence — `start_recording_to_buffer 1`, two fetches each distinct
from their predecessor, stop — does not fill the buffer: the first
iteration's truth test compares the fetched tuple against the initial
numpy zeros array, raises `ValueError` before any append, and the loop
dies with the state unchanged, so `get_buffer` yields `[]` rather than the
claimed `[s1[1], s2[1]] = [2, 4]`. -/
theorem claim2_counterexample :
    runLoop (start_recording_to_buffer (initState 2 200 "log") 1)
        [⟨true, [1, 2], 0⟩, ⟨true, [3, 4], 1⟩] =
      (start_recording_to_buffer (initState 2 200 "log") 1, false) ∧
    get_buffer (stop_recording_to_buffer
      (runLoop (start_recording_to_buffer (initState 2 200 "log") 1)
        [⟨true, [1, 2], 0⟩, ⟨true, [3, 4], 1⟩]).1) = [] ∧
    get_buffer (stop_recording_to_buffer
      (runLoop (start_recording_to_buffer (initState 2 200 "log") 1)
        [⟨true, [1, 2], 0⟩, ⟨true, [3, 4], 1⟩]).1) ≠ [2, 4] := by
  decide

/-- C2 (amended): after `start_recording_to_buffer c` with a valid
channel — on a session whose held latest sample is already a plain tuple,
or whose channel count is 1 — a run of fetches each differing from the
previously held sample, followed by `stop_recording_to_buffer`, leaves
`get_buffer` returning exactly the selected channel of each fetched sample
in order: the buffer is cleared on start, grown once per novel sample, and
preserved by stop. (On a multi-channel session straight from open the
first iteration raises `ValueError` before any append and the buffer stays
empty.) -/
theorem claim2_buffer (s : BioPac) (c : Nat) (es : List FetchEvent)
    (hconn : s.connected = true) (hc : c < s.n_channels)
    (hcmp : s.newest_is_array = false ∨ s.n_channels ≤ 1)
    (hok : ∀ e ∈ es, e.fetch_ok = true)
    (hchain : (s.newestsample :: fetchedData s.n_channels es).Chain' (· ≠ ·)) :
    ∃ s2, runLoop (start_recording_to_buffer s c) es = (s2, true) ∧
      get_buffer (stop_recording_to_buffer s2) =
        (fetchedData s.n_channels es).map (fun d => d.getD c 0) := by
  obtain ⟨s2, h1, h2, _, _, _, _⟩ := runLoop_buffer_general es
    (start_recording_to_buffer s c) hconn rfl hc hcmp hok hchain
  refine ⟨s2, h1, ?_⟩
  rw [get_buffer, stop_recording_to_buffer]
  exact h2

/-- C2 (witness): two novel samples on a single-channel session. -/
theorem claim2_witness :
    ∃ s2, runLoop (start_recording_to_buffer (initState 1 200 "log") 0)
        [⟨true, [3], 0⟩, ⟨true, [5], 1⟩] = (s2, true) ∧
      get_buffer (stop_recording_to_buffer s2) = [3, 5] := by
  obtain ⟨s2, h1, h2⟩ := claim2_buffer (initState 1 200 "log") 0
    [⟨true, [3], 0⟩, ⟨true, [5], 1⟩] rfl (by decide) (Or.inr (by decide))
    (by decide) (by simp [List.chain'_cons, initState, fetchedData, fetchFill])
  exact ⟨s2, h1, h2.trans (by decide)⟩

/-- C3: `close()` closes the log sink strictly before clearing the
session-alive indicator, and never joins the acquisition loop — for either
value of the recording flag — so the ordering the claim requires
(alive-indicator cleared, or loop joined, before the log sink is closed)
does not hold in the code. -/
theorem claim3_close_order (r : Bool) :
    (closeActions r).indexOf CloseAction.closeLogSink <
      (closeActions r).indexOf CloseAction.clearAliveIndicator ∧
    CloseAction.joinLoop ∉ closeActions r := by
  cases r <;> exact ⟨by decide, by decide⟩

/-- C4: when connect succeeds and configure-rate fails, the open aborts
with the configure-rate communication error but makes no disconnect call —
the device is left connected, so a failed open does leave the session
partially open, contrary to the claim. -/
theorem claim4_rate_failure_no_unwind :
    initBioPac "MP150" 3 200 "default" false (fun _ => false)
        ⟨true, false, true, true⟩ =
      (.error (.deviceCommunication .setSampleRate),
        [.connectMPDev, .setSampleRate]) ∧
    DriverCall.disconnectMPDev ∉
      (initBioPac "MP150" 3 200 "default" false (fun _ => false)
        ⟨true, false, true, true⟩).2 := by
  decide

/-- C6 (counterexample): on a 3-channel session, requesting buffer channel
5 — which is not `< n_channels` — succeeds and raises the
recording-to-buffer flag; no fail-fast error occurs, contrary to the
claim. -/
theorem claim6_counterexample :
    (start_recording_to_buffer (initState 3 200 "log") 5).recordtobuff = true ∧
    ¬(5 < (initState 3 200 "log").n_channels) := by
  decide

/-- C6 (amended): `start_recording_to_buffer` performs no validation of the
channel index: for every state and every index, it clears the buffer,
stores the index, and raises the flag. -/
theorem claim6_no_validation (s : BioPac) (channel : Nat) :
    (start_recording_to_buffer s channel).recordtobuff = true ∧
    (start_recording_to_buffer s channel).buffch = channel ∧
    (start_recording_to_buffer s channel).buffer = [] :=
  ⟨rfl, rfl, rfl⟩

/-- C7 (counterexample): a message containing a tab is not reconstructed by
splitting its row on tabs: the row for message `"a\tb"` splits into four
fields and no longer parses as the original message row. -/
theorem claim7_counterexample :
    parseRow (splitTab (rowLine (.msg 0 "a\tb"))) ≠ some (.msg 0 "a\tb") := by
  decide

/-- C7 (amended): splitting a written row on tabs reconstructs the original
timestamp and channel vector for every data row, and the original timestamp
and message text for every message row whose text contains no tab. -/
theorem claim7_roundtrip (t u : Nat) (vs : List Val) (m : String)
    (hm : '\t' ∉ m.data) :
    parseRow (splitTab (rowLine (.data t vs))) = some (.data t vs) ∧
    parseRow (splitTab (rowLine (.msg u m))) = some (.msg u m) := by
  obtain ⟨md⟩ := m
  constructor
  · rw [splitTab_rowLine_data]
    simp [parseRow, natDigs_ne_msgTag t, parseNat_natDigs, parseIntList_map_intChars]
  · rw [splitTab_rowLine_msg u _ hm]
    simp [parseRow, parseNat_natDigs]

/-- C7 (witness): a data row with a negative value and a tab-free message
row both round-trip. -/
theorem claim7_witness :
    parseRow (splitTab (rowLine (.data 3 [-2, 5]))) = some (.data 3 [-2, 5]) ∧
    parseRow (splitTab (rowLine (.msg 4 "hello"))) = some (.msg 4 "hello") :=
  claim7_roundtrip 3 4 [-2, 5] "hello" (by decide)

/-- C8: `log` appends exactly one message row `(MSG, t, msg)` to the log
sink for every state — in particular whatever the recording-to-log flag
is — leaves the flag unchanged, and writes under the same lock as the
acquisition loop's data-row write. -/
theorem claim8_log_msg (s : BioPac) (t : Nat) (msg : String) :
    (log s t msg).logrows = s.logrows ++ [Row.msg t msg] ∧
    (log s t msg).recording = s.recording ∧
    logLock = sampleprocesserLock :=
  ⟨rfl, rfl, rfl⟩

/-- C9: when the base log name exists and overwrite is off, `__init__`
raises Python's `TypeError` from the swapped-argument format string in the
collision loop — no disambiguated name is ever produced and no driver call
is made — while with overwrite on it reuses the original name and opens it
in truncating write mode. -/
theorem claim9_collision :
    initBioPac "MP150" 3 200 "default" false
        (fun s => s == "default_BIOPAC_data.tsv") ⟨true, true, true, true⟩ =
      (.error .typeErrorPercentD, []) ∧
    initBioPac "MP150" 3 200 "default" true
        (fun s => s == "default_BIOPAC_data.tsv") ⟨true, true, true, true⟩ =
      (.ok (initState 3 200 "default_BIOPAC_data.tsv"),
        [.connectMPDev, .setSampleRate, .setAcqChannels, .startAcquisition]) ∧
    logOpenMode = "w" := by
  decide

/-- C10: at open the shared sample state is the all-zeros vector of length
`n_channels`, and after the acquisition loop processes any sequence of
fetch events — whether or not the thread survives them — `sample` still
returns a vector of exactly `n_channels` entries (a crash installs
nothing). -/
theorem claim10_sample_length (n sr : Nat) (fname : String)
    (es : List FetchEvent) :
    sample (initState n sr fname) = List.replicate n 0 ∧
    (sample (runLoop (initState n sr fname) es).1).length = n := by
  refine ⟨rfl, ?_⟩
  obtain ⟨h1, h2⟩ := runLoop_length_general es (initState n sr fname)
    (by simp [initState])
  rw [sample, h1, h2]
  rfl

end MPyDev
